import Mathlib

/-!
Verification of the `tritonhttp` static-file HTTP/1.1 server
(course project repository, Go; files `request.go`, `response.go`, `server.go`).

The repository contains several overlapping drafts of the same server; the
final coherent program is the one whose connection loop calls
`Response.HandleGoodRequest(req, s.VirtualHosts)` and whose serializer is
`Response.ToString` built from `addInitialLine`/`addHeaders`.  The
definitions below are shallow embeddings of those functions: Go strings
become Lean `String`s, Go maps become association lists, the filesystem and
the external collaborators (MIME lookup, time formatting) become explicit
parameters, and the per-connection loop becomes a trace function over a
list of read outcomes.  Go runtime panics (out-of-range string indexing)
are modelled by an explicit `panicked` result constructor.
-/

/-! ## Models of the Go standard-library string functions used by the server -/

/-- `sub.isPrefixOf l || ...` scan: does `sub` occur as a contiguous
subsequence of `l`?  This is the substring search underlying Go's
`strings.Contains`. -/
def containsSeq (sub : List Char) : List Char → Bool
  | [] => sub.isEmpty
  | c :: t => sub.isPrefixOf (c :: t) || containsSeq sub t

/-- Go `strings.Contains(s, substr)`: reports whether `substr` is within `s`. -/
def goContains (s substr : String) : Bool :=
  containsSeq substr.data s.data

/-- Go `strings.HasSuffix(s, suffix)`. -/
def goHasSuffix (s suffix : String) : Bool :=
  suffix.data.isSuffixOf s.data

/-- Go `strings.HasPrefix(s, prefix)`. -/
def goHasPrefix (s pre : String) : Bool :=
  pre.data.isPrefixOf s.data

/-- Go `strings.ToLower` restricted to ASCII (the server only compares
ASCII header values). -/
def goToLower (s : String) : String :=
  ⟨s.data.map Char.toLower⟩

/-- ASCII white-space recognised by Go `unicode.IsSpace` (the non-ASCII
space code points are outside this model). -/
def isGoSpace (c : Char) : Bool :=
  c = ' ' || c = '\t' || c = '\n' || c.toNat = 11 || c.toNat = 12 || c = '\r'

/-- Go `strings.TrimSpace` (ASCII model). -/
def goTrimSpace (s : String) : String :=
  ⟨((s.data.dropWhile isGoSpace).reverse.dropWhile isGoSpace).reverse⟩

/-- First occurrence of `sep` inside a character list: returns the part
before the match and the part after it.  Helper for `goSplitN`. -/
def splitFirstAux (sep : List Char) : List Char → Option (List Char × List Char)
  | [] => if sep.isEmpty then some ([], []) else none
  | c :: t =>
    if sep.isPrefixOf (c :: t) then some ([], (c :: t).drop sep.length)
    else (splitFirstAux sep t).map fun pr => (c :: pr.1, pr.2)

/-- Split `s` at the first occurrence of `sep` (which is non-empty at every
call site in the server). -/
def splitFirstStr (s sep : String) : Option (String × String) :=
  (splitFirstAux sep.data s.data).map fun pr => (⟨pr.1⟩, ⟨pr.2⟩)

/-- Go `strings.SplitN(s, sep, n)` for `n ≥ 0` and non-empty `sep`:
at most `n` fields, the last field carries the unsplit remainder. -/
def goSplitN (s sep : String) : Nat → List String
  | 0 => []
  | 1 => [s]
  | n + 2 =>
    match splitFirstStr s sep with
    | none => [s]
    | some pr => pr.1 :: goSplitN pr.2 sep (n + 1)

/-- Split a character list at every `'/'` (keeping empty components),
the character-level core of Go `strings.Split(path, "/")`. -/
def splitOnSlash (l : List Char) : List (List Char) :=
  l.foldr
    (fun c acc =>
      if c = '/' then [] :: acc
      else
        match acc with
        | [] => [[c]]
        | a :: r => (c :: a) :: r)
    [[]]

/-- Go `path/filepath.Clean` for slash-separated paths: drop empty and
`"."` components, resolve `".."` against preceding components (dropping a
leading `".."` of a rooted path), return `"."` for an empty result. -/
def goClean (path : String) : String :=
  if path = "" then "."
  else
    let rooted : Bool := path.data.head? = some '/'
    let comps := (splitOnSlash path.data).filter fun c => !(c.isEmpty || c = ['.'])
    let out := comps.foldl
      (fun acc c =>
        if c = ['.', '.'] then
          match acc with
          | [] => if rooted then [] else [c]
          | d :: rest => if d = ['.', '.'] then c :: acc else rest
        else c :: acc)
      []
    let outL := out.reverse
    if outL = [] then (if rooted then "/" else ".")
    else (if rooted then "/" else "") ++ ⟨List.intercalate ['/'] outL⟩

/-- Go `path/filepath.Dir`: everything up to (and including) the final
slash, cleaned; `"."` when there is no slash. -/
def goDir (p : String) : String :=
  goClean ⟨(p.data.reverse.dropWhile fun c => c ≠ '/').reverse⟩

/-- Go `path/filepath.Ext`: the suffix of the final path element starting
at its final dot, `""` when the final element has no dot. -/
def goExt (p : String) : String :=
  let r := p.data.reverse.takeWhile fun c => c ≠ '/'
  match r.findIdx? fun c => c = '.' with
  | none => ""
  | some i => ⟨(r.take (i + 1)).reverse⟩

/-- Characters allowed in a MIME header key (Go `textproto`'s token table:
letters, digits, and the bytes of a token's special characters). -/
def isTokenChar (c : Char) : Bool :=
  c.isAlphanum ||
    c.toNat ∈ [33, 35, 36, 37, 38, 39, 42, 43, 45, 46, 94, 95, 96, 124, 126]

/-- Go `textproto.CanonicalMIMEHeaderKey`: if every byte is a valid token
byte, upper-case the first letter and every letter following a hyphen and
lower-case the rest; otherwise return the key unchanged. -/
def canonicalMIMEHeaderKey (s : String) : String :=
  if s.data.all isTokenChar then
    ⟨((s.data.foldl
        (fun (acc : List Char × Bool) c =>
          ((if acc.2 then c.toUpper else c.toLower) :: acc.1, c = '-'))
        ([], true)).1).reverse⟩
  else s

/-! ## Basic facts about the helpers -/

theorem strExt (a b : String) (h : a.data = b.data) : a = b := by
  cases a; cases b; cases h; rfl

theorem data_append (s t : String) : (s ++ t).data = s.data ++ t.data := by
  cases s; cases t; rfl

theorem strAppend_assoc (a b c : String) : (a ++ b) ++ c = a ++ (b ++ c) := by
  cases a; cases b; cases c
  apply strExt
  simp [data_append, List.append_assoc]

theorem str_nil_append (a : String) : "" ++ a = a := by
  cases a; apply strExt; simp [data_append]

theorem str_append_nil (a : String) : a ++ "" = a := by
  cases a
  apply strExt
  have : ("" : String).data = [] := rfl
  simp [data_append, this]

theorem isPrefixOf_append_self (l t : List Char) : l.isPrefixOf (l ++ t) = true := by
  induction l with
  | nil => simp [List.isPrefixOf]
  | cons c cs ih => simp [List.isPrefixOf, ih]

theorem containsSeq_of_isPrefixOf (sub l : List Char) (h : sub.isPrefixOf l = true) :
    containsSeq sub l = true := by
  cases l with
  | nil =>
    cases sub with
    | nil => rfl
    | cons c cs => simp [List.isPrefixOf] at h
  | cons c t => simp [containsSeq, h]

theorem containsSeq_append_left (sub l₁ l₂ : List Char)
    (h : containsSeq sub l₂ = true) : containsSeq sub (l₁ ++ l₂) = true := by
  induction l₁ with
  | nil => simpa using h
  | cons c t ih => simp [containsSeq, ih]

theorem goSplitN_length_le (n : Nat) : ∀ s sep : String,
    (goSplitN s sep (n + 1)).length ≤ n + 1 := by
  induction n with
  | zero => intro s sep; simp [goSplitN]
  | succ n ih =>
    intro s sep
    rw [goSplitN]
    cases h : splitFirstStr s sep with
    | none => simp
    | some pr =>
      simp only [List.length_cons]
      exact Nat.succ_le_succ (ih pr.2 sep)

/-! ## Data model (`request.go`, `response.go`, `server.go` constants) -/

def PROTO : String := "HTTP/1.1"

def CONTENTTYPE : String := "text/html"

def CRLF : String := "\r\n"

def HOST : String := "Host"

def CONNECTION : String := "Connection"

def statusOK : Nat := 200

def statusBadRequest : Nat := 400

def statusNotFound : Nat := 404

def statusMethodNotAllowed : Nat := 405

/-- The `statusText` map of `server.go` (a missing key yields Go's zero
value `""`). -/
def statusText (n : Nat) : String :=
  if n = statusOK then "OK"
  else if n = statusMethodNotAllowed then "Method Not Allowed"
  else if n = statusNotFound then "Not Found"
  else if n = statusBadRequest then "Bad Request"
  else ""

/-- The `Request` struct of `request.go`.  `Headers` is the Go
`map[string]string` as an association list. -/
structure Request where
  Method : String
  URL : String
  Proto : String
  Headers : List (String × String)
  Host : String
  Close : Bool
deriving DecidableEq, Repr

/-- The `Response` struct of `response.go`.  The `Request` back-pointer is
dropped (it never influences any output); `ContentLength` is an `Int`
because the Go code uses `-1` as the "no body" sentinel. -/
structure Response where
  Proto : String
  StatusCode : Nat
  StatusText : String
  Headers : List (String × String)
  Date : String
  ContentLength : Int
  LastModified : String
  ContentType : String
  Body : String
  Connection : Bool
deriving DecidableEq, Repr

/-- Go's zero value `Response{}`. -/
def emptyResponse : Response :=
  { Proto := "", StatusCode := 0, StatusText := "", Headers := [], Date := ""
    ContentLength := 0, LastModified := "", ContentType := "", Body := ""
    Connection := false }

/-- A filesystem entry as observed through `os.Stat`/`os.ReadFile`:
a directory, a regular file with its contents and (abstract) modification
time, or a file whose `os.ReadFile` fails after a successful stat. -/
inductive FSEntry where
  | dir : FSEntry
  | file (content : String) (modTime : Nat) : FSEntry
  | unreadable (modTime : Nat) : FSEntry
deriving DecidableEq, Repr

/-- The filesystem: `none` is `os.IsNotExist`. -/
def FS : Type := String → Option FSEntry

/-! ## `response.go` -/

/-- `Response.init` of `response.go`: `FormatTime(time.Now())` is the
abstract string `nowStr`. -/
def Response.init (nowStr : String) (res : Response) : Response :=
  { res with Date := nowStr, Proto := PROTO, ContentType := CONTENTTYPE
             ContentLength := -1 }

/-- The `filelocation` computed at the top of `HandleGoodRequest`:
a target ending in `"/"` gets `"index.html"` appended. -/
def filelocationOf (req : Request) : String :=
  if goHasSuffix req.URL "/" then req.URL ++ "index.html" else req.URL

/-- `Response.HandleGoodRequest` of `response.go`.  External collaborators
are parameters: `mimeByExt` is `mime.TypeByExtension`, `fmtTime` is
`FormatTime ∘ ModTime`, `nowStr` is `FormatTime(time.Now())`, `fs` is the
filesystem.  Note that the source's traversal guard is
`strings.Contains("../", filelocfinal)` — the arguments are swapped, so it
only fires when the whole cleaned path is a substring of `"../"`. -/
def HandleGoodRequest (mimeByExt : String → String) (fmtTime : Nat → String)
    (nowStr : String) (req : Request) (virtualHosts : List (String × String))
    (fs : FS) : Response :=
  let res := Response.init nowStr emptyResponse
  let res := if req.Close then { res with Connection := true } else res
  let res := { res with StatusCode := statusNotFound
                        StatusText := statusText statusNotFound }
  match List.lookup req.Host virtualHosts with
  | none =>
    { res with StatusCode := statusBadRequest
               StatusText := statusText statusBadRequest }
  | some docroot =>
    let filelocfinal := goClean (docroot ++ filelocationOf req)
    let wrong := goContains "../" filelocfinal
    match fs filelocfinal with
    | none => res
    | some FSEntry.dir => res
    | some (FSEntry.unreadable _) => { res with Connection := true }
    | some (FSEntry.file content mt) =>
      let res := { res with ContentLength := (content.length : Int)
                            LastModified := fmtTime mt
                            Body := content
                            ContentType := mimeByExt (goExt filelocfinal) }
      if wrong then res
      else { res with StatusCode := statusOK, StatusText := statusText statusOK }

/-- `Response.HandleBadRequest` of `response.go` (the request argument only
fills the dropped back-pointer). -/
def HandleBadRequest (nowStr : String) : Response :=
  { emptyResponse with Date := nowStr, Proto := PROTO, ContentLength := -1
                       ContentType := CONTENTTYPE
                       StatusCode := statusBadRequest
                       StatusText := statusText statusBadRequest
                       Connection := true }

/-! ## `request.go`: `processHeader` -/

/-- Result of `Request.processHeader`; `panickedPH` models the Go runtime
panic of `req.URL[0]` on an empty URL. -/
inductive PHResult where
  | okPH (req : Request) : PHResult
  | errPH : PHResult
  | panickedPH : PHResult
deriving DecidableEq, Repr

/-- `Request.processHeader` of `request.go`: require the URL to start with
`'/'`, require a `Host` header (else error), copy it into `Host`, and set
`Close` when a `Connection` header's value lower-cases to `"close"` (any
other value is ignored). -/
def Request.processHeader (req : Request) : PHResult :=
  match req.URL.data with
  | [] => PHResult.panickedPH
  | c :: _ =>
    if c ≠ '/' then PHResult.errPH
    else
      match List.lookup HOST req.Headers with
      | none => PHResult.errPH
      | some hv =>
        let req := { req with Host := hv }
        match List.lookup CONNECTION req.Headers with
        | none => PHResult.okPH req
        | some v =>
          if goToLower v = "close" then PHResult.okPH { req with Close := true }
          else PHResult.okPH req

/-! ## `server.go`: request parsing -/

def validMethod (method : String) : Bool := method = "GET"

def validProto (proto : String) : Bool := proto = "HTTP/1.1"

/-- `parseRequestLine` of `server.go`: `strings.SplitN(line, " ", 3)` must
yield exactly 3 fields. -/
def parseRequestLine (line : String) : Option (String × String × String) :=
  match goSplitN line " " 3 with
  | [m, u, p] => some (m, u, p)
  | _ => none

/-- The classified parse failures of `ReadRequest`. -/
inductive ParseErr where
  | malformedStartLine
  | invalidMethod
  | invalidProto
  | invalidURL
  | invalidHeader
  | hostNotPresent
  | incomplete
deriving DecidableEq, Repr

inductive StartLineResult where
  | okSL (m u p : String) : StartLineResult
  | errSL (e : ParseErr) : StartLineResult
deriving DecidableEq, Repr

/-- The start-line stage of `ReadRequest`: `parseRequestLine`, then
`validMethod`, then `validProto`, in that order. -/
def parseStartLineStage (line : String) : StartLineResult :=
  match parseRequestLine line with
  | none => StartLineResult.errSL ParseErr.malformedStartLine
  | some (m, u, p) =>
    if validMethod m then
      if validProto p then StartLineResult.okSL m u p
      else StartLineResult.errSL ParseErr.invalidProto
    else StartLineResult.errSL ParseErr.invalidMethod

/-- Result of `ReadRequest`; `panicked` models the Go runtime panic of
`req.URL[0]` when the target field is empty. -/
inductive ParseResult where
  | ok (req : Request) : ParseResult
  | errR (e : ParseErr) : ParseResult
  | panicked : ParseResult
deriving DecidableEq, Repr

/-- The header loop of the final `ReadRequest` in `server.go`.  Faithful to
the source, including its swapped branches: a `"Host"` key only checks its
value against `"close"` to set the close flag, while a `"Connection"` key
stores its value into `req.Host` and marks the host as seen. -/
def readHeaderLines : List String → Request → Bool → ParseResult
  | [], _, _ => ParseResult.errR ParseErr.incomplete
  | line :: rest, req, hostSeen =>
    if line = "" then
      (if hostSeen then ParseResult.ok req
       else ParseResult.errR ParseErr.hostNotPresent)
    else if goContains line ":" = false then
      ParseResult.errR ParseErr.invalidHeader
    else
      match goSplitN line ": " 2 with
      | [f0, f1] =>
        let key := canonicalMIMEHeaderKey (goTrimSpace f0)
        let value := goTrimSpace f1
        if goContains key " " then ParseResult.errR ParseErr.invalidHeader
        else if goContains value " " then ParseResult.errR ParseErr.invalidHeader
        else if key = "Host" then
          readHeaderLines rest
            (if value = "close" then { req with Close := true } else req) hostSeen
        else if key = "Connection" then
          readHeaderLines rest { req with Host := value } true
        else readHeaderLines rest req hostSeen
      | _ => ParseResult.errR ParseErr.invalidHeader

/-- The final `ReadRequest` of `server.go`, as a pure function of the
CRLF-stripped lines delivered by `ReadLine`.  An exhausted line list models
a read error mid-request (`incomplete`). -/
def ReadRequest (lines : List String) : ParseResult :=
  match lines with
  | [] => ParseResult.errR ParseErr.incomplete
  | line :: rest =>
    match parseStartLineStage line with
    | StartLineResult.errSL e => ParseResult.errR e
    | StartLineResult.okSL m u p =>
      match u.data with
      | [] => ParseResult.panicked
      | c :: _ =>
        if c ≠ '/' then ParseResult.errR ParseErr.invalidURL
        else readHeaderLines rest
          { Method := m, URL := u, Proto := p, Headers := [], Host := ""
            Close := false } false

/-! ## `server.go`: `checkInDocroot` (containment by walking `filepath.Dir`) -/

/-- The loop body of `checkInDocroot`, with explicit fuel: the Go loop
`for dir != "." { dir = filepath.Dir(dir); if dir == docroot { return true } }`
does not terminate on rooted paths (`Dir "/" = "/"`), so the fuel bounds
the number of `Dir` steps; for relative paths every step shortens the path
and the fuel below is never exhausted. -/
def checkInDocrootFuel : Nat → String → String → Bool
  | 0, _, _ => false
  | n + 1, dir, docroot =>
    if dir = "." then false
    else
      let d := goDir dir
      if d = docroot then true else checkInDocrootFuel n d docroot

/-- `checkInDocroot` of `server.go`: walk parent directories of `path`
looking for `docroot`. -/
def checkInDocroot (path docroot : String) : Bool :=
  checkInDocrootFuel (path.length + 2) path docroot

/-! ## `server.go`: the response serializer -/

/-- One serialized header line `"<Name>: <value>\r\n"`, the shape produced
by each `fmt.Sprintf` in `addHeaders`. -/
def headerLine (name value : String) : String :=
  name ++ (": " ++ (value ++ CRLF))

/-- `Response.addInitialLine` of `server.go`:
`fmt.Sprintf("%s %s %s%s", res.Proto, strconv.Itoa(res.StatusCode), res.StatusText, CRLF)`. -/
def Response.addInitialLine (res : Response) : String :=
  res.Proto ++ (" " ++ (toString res.StatusCode ++ (" " ++ (res.StatusText ++ CRLF))))

/-- `Response.addHeaders` of `server.go`: `Connection: close` when the
flag is set, then `Content-Length`/`Content-Type` when the length is
non-negative, then `Date`, then `Last-Modified` when the length is
non-negative, then a blank line, then the body.  The Go `headers += ...`
chain is written right-associated (string append is associative). -/
def Response.addHeaders (res : Response) : String :=
  (if res.Connection = true then headerLine "Connection" "close" else "") ++
    ((if ¬res.ContentLength < 0 then
        headerLine "Content-Length" (toString res.ContentLength) ++
          headerLine "Content-Type" res.ContentType
      else "") ++
      (headerLine "Date" res.Date ++
        ((if res.ContentLength ≥ 0 then headerLine "Last-Modified" res.LastModified
          else "") ++
          (CRLF ++ res.Body))))

/-- `Response.ToString` of `server.go`: the start line, then `addHeaders`
(which already ends with a blank line and the body), then another blank
line and the body again. -/
def Response.ToString (res : Response) : String :=
  res.addInitialLine ++ (res.addHeaders ++ (CRLF ++ res.Body))

/-- The header name/value pairs a `Response` carries on the wire, in the
order `addHeaders` emits them. -/
def wireHeaders (res : Response) : List (String × String) :=
  (if res.Connection = true then [("Connection", "close")] else []) ++
    (if ¬res.ContentLength < 0 then
      [("Content-Length", toString res.ContentLength),
       ("Content-Type", res.ContentType)]
     else []) ++
    [("Date", res.Date)] ++
    (if res.ContentLength ≥ 0 then [("Last-Modified", res.LastModified)] else [])

/-- Render a header list as consecutive `"<Name>: <value>\r\n"` lines. -/
def renderHeaders (hdrs : List (String × String)) : String :=
  hdrs.foldr (fun kv acc => headerLine kv.1 kv.2 ++ acc) ""

/-- Lexicographic comparison of character lists (for the spec's
"headers sorted lexicographically by name"). -/
def lexLe : List Char → List Char → Bool
  | [], _ => true
  | _ :: _, [] => false
  | a :: as, b :: bs => if a = b then lexLe as bs else decide (a < b)

/-- Insertion into a name-sorted header list. -/
def insertHdr (kv : String × String) :
    List (String × String) → List (String × String)
  | [] => [kv]
  | h :: t => if lexLe kv.1.data h.1.data then kv :: h :: t else h :: insertHdr kv t

/-- Insertion sort of headers by name. -/
def sortHeaders : List (String × String) → List (String × String)
  | [] => []
  | h :: t => insertHdr h (sortHeaders t)

/-- Modelled from the spec: the serializer emits the status line
`"<version> <code> <reason>\r\n"`, then every header as
`"<Name>: <value>\r\n"` sorted lexicographically by name, then a blank
line, then the body bytes verbatim, the body being omitted entirely when
the status is not 200. -/
def specSerialize (res : Response) : String :=
  res.addInitialLine ++
    (renderHeaders (sortHeaders (wireHeaders res)) ++
      (CRLF ++ (if res.StatusCode = 200 then res.Body else "")))

/-! ## `server.go`: the connection loop as an event trace -/

/-- The outcome of one `ReadRequest` attempt on the connection, as
classified by `HandleConnection`: end-of-file from the peer, a read
timeout with or without bytes already consumed, any other parse failure,
or a successfully parsed request. -/
inductive ReadResult where
  | eofR : ReadResult
  | timeoutNoBytes : ReadResult
  | timeoutBytes : ReadResult
  | failR : ReadResult
  | success (req : Request) : ReadResult
deriving DecidableEq, Repr

/-- Observable connection events: a read attempt, response bytes written,
and a `conn.Close()` call. -/
inductive Event where
  | readAttempt : Event
  | wrote (s : String) : Event
  | closedConn : Event
deriving DecidableEq, Repr

/-- The final `HandleConnection` of `server.go` as a trace function.  The
first argument is whether the connection is already closed (in which case
`conn.SetReadDeadline` fails and the loop closes and breaks); the list is
the successive `ReadRequest` outcomes.  Branches follow the source: EOF
logs and continues; a timeout with no bytes closes silently and returns;
a timeout with bytes writes a 400 (whose `Write` closes the connection,
`res.Connection` being true), closes, and returns; any other error writes
a 400, closes, and falls through to the next iteration; a parsed request
is answered by `HandleGoodRequest` and `Response.Write`, which closes the
connection exactly when `res.Connection` is set. -/
def HandleConnectionEvents (mimeByExt : String → String) (fmtTime : Nat → String)
    (nowStr : String) (virtualHosts : List (String × String)) (fs : FS) :
    Bool → List ReadResult → List Event
  | true, _ => [Event.closedConn]
  | false, [] => []
  | false, r :: rest =>
    match r with
    | ReadResult.eofR =>
      Event.readAttempt ::
        HandleConnectionEvents mimeByExt fmtTime nowStr virtualHosts fs false rest
    | ReadResult.timeoutNoBytes => [Event.readAttempt, Event.closedConn]
    | ReadResult.timeoutBytes =>
      [Event.readAttempt, Event.wrote (Response.ToString (HandleBadRequest nowStr)),
       Event.closedConn, Event.closedConn]
    | ReadResult.failR =>
      Event.readAttempt ::
        Event.wrote (Response.ToString (HandleBadRequest nowStr)) ::
          Event.closedConn :: Event.closedConn ::
            HandleConnectionEvents mimeByExt fmtTime nowStr virtualHosts fs true rest
    | ReadResult.success req =>
      let res := HandleGoodRequest mimeByExt fmtTime nowStr req virtualHosts fs
      if res.Connection then
        Event.readAttempt :: Event.wrote (Response.ToString res) ::
          Event.closedConn ::
            HandleConnectionEvents mimeByExt fmtTime nowStr virtualHosts fs true rest
      else
        Event.readAttempt :: Event.wrote (Response.ToString res) ::
          HandleConnectionEvents mimeByExt fmtTime nowStr virtualHosts fs false rest

/-! ## Lemmas about the embedding -/

theorem eq_of_isPrefixOf_one (sub : List Char) (a : Char)
    (h : sub.isPrefixOf [a] = true) : sub = [] ∨ sub = [a] := by
  match sub with
  | [] => exact Or.inl rfl
  | [x] =>
    simp [List.isPrefixOf] at h
    exact Or.inr (by rw [h])
  | x :: y :: t => simp [List.isPrefixOf] at h

theorem eq_of_isPrefixOf_two (sub : List Char) (a b : Char)
    (h : sub.isPrefixOf [a, b] = true) : sub = [] ∨ sub = [a] ∨ sub = [a, b] := by
  match sub with
  | [] => exact Or.inl rfl
  | [x] =>
    simp [List.isPrefixOf] at h
    exact Or.inr (Or.inl (by rw [h]))
  | [x, y] =>
    simp [List.isPrefixOf] at h
    exact Or.inr (Or.inr (by rw [h.1, h.2]))
  | x :: y :: z :: t => simp [List.isPrefixOf] at h

theorem eq_of_isPrefixOf_three (sub : List Char) (a b c : Char)
    (h : sub.isPrefixOf [a, b, c] = true) :
    sub = [] ∨ sub = [a] ∨ sub = [a, b] ∨ sub = [a, b, c] := by
  match sub with
  | [] => exact Or.inl rfl
  | [x] =>
    simp [List.isPrefixOf] at h
    exact Or.inr (Or.inl (by rw [h]))
  | [x, y] =>
    simp [List.isPrefixOf] at h
    exact Or.inr (Or.inr (Or.inl (by rw [h.1, h.2])))
  | [x, y, z] =>
    simp [List.isPrefixOf] at h
    exact Or.inr (Or.inr (Or.inr (by rw [h.1, h.2.1, h.2.2])))
  | x :: y :: z :: w :: t => simp [List.isPrefixOf] at h

/-- The only strings contained in `"../"` are `""`, `"."`, `".."`, `"../"`,
`"/"` and `"./"` — so the swapped-argument guard
`strings.Contains("../", filelocfinal)` can only fire on those paths. -/
theorem eq_of_goContains_dotdotslash (p : String)
    (h : goContains "../" p = true) :
    p = "" ∨ p = "." ∨ p = ".." ∨ p = "../" ∨ p = "/" ∨ p = "./" := by
  have hd : ("../" : String).data = ['.', '.', '/'] := rfl
  rw [goContains, hd] at h
  simp only [containsSeq, Bool.or_eq_true] at h
  have hmk : ∀ l : List Char, p.data = l → p = ⟨l⟩ := by
    intro l hl
    exact strExt _ _ hl
  rcases h with h | h | h | h
  · rcases eq_of_isPrefixOf_three _ _ _ _ h with h | h | h | h
    · exact Or.inl (hmk [] h)
    · exact Or.inr (Or.inl (hmk ['.'] h))
    · exact Or.inr (Or.inr (Or.inl (hmk ['.', '.'] h)))
    · exact Or.inr (Or.inr (Or.inr (Or.inl (hmk ['.', '.', '/'] h))))
  · rcases eq_of_isPrefixOf_two _ _ _ h with h | h | h
    · exact Or.inl (hmk [] h)
    · exact Or.inr (Or.inl (hmk ['.'] h))
    · exact Or.inr (Or.inr (Or.inr (Or.inr (Or.inr (hmk ['.', '/'] h)))))
  · rcases eq_of_isPrefixOf_one _ _ h with h | h
    · exact Or.inl (hmk [] h)
    · exact Or.inr (Or.inr (Or.inr (Or.inr (Or.inl (hmk ['/'] h)))))
  · exact Or.inl (hmk [] (by simpa [List.isEmpty_iff] using h))

/-- A path that names a regular file on a real filesystem: the six strings
contained in `"../"` all denote directories (or nothing), never regular
files. -/
def realisticFilePath (p : String) : Prop :=
  p ≠ "" ∧ p ≠ "." ∧ p ≠ ".." ∧ p ≠ "../" ∧ p ≠ "/" ∧ p ≠ "./"

instance (p : String) : Decidable (realisticFilePath p) := by
  unfold realisticFilePath
  infer_instance

theorem goContains_false_of_realistic (p : String) (h : realisticFilePath p) :
    goContains "../" p = false := by
  cases hcb : goContains "../" p with
  | false => rfl
  | true =>
    rcases eq_of_goContains_dotdotslash p hcb with h' | h' | h' | h' | h' | h' <;>
      simp [realisticFilePath, h'] at h

/-- When the incoming request set the close flag, every branch of
`HandleGoodRequest` leaves the response's `Connection` flag set. -/
theorem HandleGoodRequest_Connection_of_Close (mimeByExt : String → String)
    (fmtTime : Nat → String) (nowStr : String) (req : Request)
    (virtualHosts : List (String × String)) (fs : FS) (h : req.Close = true) :
    (HandleGoodRequest mimeByExt fmtTime nowStr req virtualHosts fs).Connection = true := by
  unfold HandleGoodRequest
  cases hlk : List.lookup req.Host virtualHosts with
  | none => simp [h]
  | some docroot =>
    cases hfs : fs (goClean (docroot ++ filelocationOf req)) with
    | none => simp [h, hfs]
    | some e =>
      cases e with
      | dir => simp [h, hfs]
      | unreadable mt => simp [h, hfs]
      | file content mt =>
        simp only [h, hfs, if_true]
        split <;> rfl

/-- `addHeaders` is exactly the rendering of `wireHeaders`, followed by a
blank line and the body. -/
theorem addHeaders_renders (res : Response) :
    res.addHeaders = renderHeaders (wireHeaders res) ++ (CRLF ++ res.Body) := by
  rcases lt_or_ge res.ContentLength 0 with hl | hl
  · have h1 : ¬res.ContentLength ≥ 0 := not_le.mpr hl
    by_cases hc : res.Connection = true <;>
      simp [Response.addHeaders, wireHeaders, renderHeaders, hc, hl, h1,
        strAppend_assoc, str_append_nil, str_nil_append]
  · have h1 : ¬res.ContentLength < 0 := not_lt_of_ge hl
    by_cases hc : res.Connection = true <;>
      simp [Response.addHeaders, wireHeaders, renderHeaders, hc, hl, h1,
        strAppend_assoc, str_append_nil, str_nil_append]

/-- With the connection flag set, the serialized response contains the
header line `"Connection: close\r\n"`. -/
theorem ToString_contains_close (res : Response) (hc : res.Connection = true) :
    goContains (Response.ToString res) ("Connection: close" ++ CRLF) = true := by
  have hhl : headerLine "Connection" "close" = "Connection: close" ++ CRLF := by decide
  have hA : res.addHeaders = ("Connection: close" ++ CRLF) ++
      ((if ¬res.ContentLength < 0 then
          headerLine "Content-Length" (toString res.ContentLength) ++
            headerLine "Content-Type" res.ContentType
        else "") ++
        (headerLine "Date" res.Date ++
          ((if res.ContentLength ≥ 0 then headerLine "Last-Modified" res.LastModified
            else "") ++
            (CRLF ++ res.Body)))) := by
    rw [Response.addHeaders, hc, ← hhl]
    simp
  rw [goContains]
  have hdata : (Response.ToString res).data =
      res.addInitialLine.data ++ (("Connection: close" ++ CRLF).data ++
        (((if ¬res.ContentLength < 0 then
            headerLine "Content-Length" (toString res.ContentLength) ++
              headerLine "Content-Type" res.ContentType
          else "") ++
          (headerLine "Date" res.Date ++
            ((if res.ContentLength ≥ 0 then headerLine "Last-Modified" res.LastModified
              else "") ++
              (CRLF ++ res.Body)))).data ++ (CRLF ++ res.Body).data)) := by
    rw [Response.ToString, hA]
    simp [data_append, List.append_assoc]
  rw [hdata]
  exact containsSeq_append_left _ _ _
    (containsSeq_of_isPrefixOf _ _ (isPrefixOf_append_self _ _))

/-! ## Concrete fixtures -/

def mime0 : String → String := fun _ => "text/html"

def fmt0 : Nat → String := fun _ => "M"

def vhA : List (String × String) := [("a.com", "site")]

/-- A filesystem with a file outside the docroot `"site"`. -/
def fsSecret : FS := fun p =>
  if p = "secret.txt" then some (FSEntry.file "top secret" 0) else none

/-- A filesystem with two regular files inside the docroot `"site"`. -/
def fsSite : FS := fun p =>
  if p = "site/index.html" then some (FSEntry.file "hello" 0)
  else if p = "site/x" then some (FSEntry.file "hi" 0)
  else none

def reqTraversal : Request :=
  { Method := "GET", URL := "/../secret.txt", Proto := "HTTP/1.1"
    Headers := [("Host", "a.com")], Host := "a.com", Close := false }

def reqIndex : Request :=
  { Method := "GET", URL := "/index.html", Proto := "HTTP/1.1"
    Headers := [("Host", "a.com")], Host := "a.com", Close := false }

def reqIndexClose : Request := { reqIndex with Close := true }

def reqUnknown : Request :=
  { Method := "GET", URL := "/page", Proto := "HTTP/1.1"
    Headers := [("Host", "unknown.com")], Host := "unknown.com", Close := false }

/-- The request value the final `ReadRequest` produces from a header block
containing only `Connection: a.com` (its swapped branches store the
`Connection` value into `Host`). -/
def reqConnOnly : Request :=
  { Method := "GET", URL := "/x", Proto := "HTTP/1.1", Headers := []
    Host := "a.com", Close := false }

def reqHdrs : Request :=
  { Method := "GET", URL := "/x", Proto := "HTTP/1.1"
    Headers := [("Host", "a.com"), ("Connection", "Keep-Alive")], Host := ""
    Close := false }

def reqEmptyURL : Request :=
  { Method := "GET", URL := "", Proto := "HTTP/1.1", Headers := [], Host := ""
    Close := false }

/-- A well-formed 200 response with a one-byte body. -/
def res200x : Response :=
  { emptyResponse with Proto := "HTTP/1.1", StatusCode := 200, StatusText := "OK"
                       Date := "D", ContentLength := 1, ContentType := "text/html"
                       LastModified := "M", Body := "x" }

/-! ## The claims -/

/-- C1: the claim says every request whose canonicalized resolved path
escapes the matched document root gets a 404, but the source's traversal
guard is `strings.Contains("../", filelocfinal)` with swapped arguments:
for `GET /../secret.txt` against docroot `"site"` the cleaned path
`"secret.txt"` lies outside the docroot (the source's own `checkInDocroot`
says so), yet the built response is `200` and serves the file's bytes. -/
theorem C1_escape_served_200 :
    checkInDocroot "secret.txt" "site" = false
    ∧ goClean ("site" ++ filelocationOf reqTraversal) = "secret.txt"
    ∧ (HandleGoodRequest mime0 fmt0 "D" reqTraversal vhA fsSecret).StatusCode = 200
    ∧ (HandleGoodRequest mime0 fmt0 "D" reqTraversal vhA fsSecret).Body = "top secret" := by
  decide

/-- C2: a GET request with a known host whose resolved path is an
existing readable regular file is answered with status 200, a
`ContentLength` equal to the file's byte count, and a body equal to the
file's bytes (`realisticFilePath` records that a regular file's path is
never one of the six degenerate strings contained in `"../"`). -/
theorem C2_file_served_exact (mimeByExt : String → String) (fmtTime : Nat → String)
    (nowStr : String) (req : Request) (virtualHosts : List (String × String))
    (fs : FS) (docroot : String) (content : String) (mt : Nat)
    (hget : req.Method = "GET")
    (hhost : List.lookup req.Host virtualHosts = some docroot)
    (hfile : fs (goClean (docroot ++ filelocationOf req)) =
      some (FSEntry.file content mt))
    (hreal : realisticFilePath (goClean (docroot ++ filelocationOf req))) :
    (HandleGoodRequest mimeByExt fmtTime nowStr req virtualHosts fs).StatusCode = 200
    ∧ (HandleGoodRequest mimeByExt fmtTime nowStr req virtualHosts fs).ContentLength =
        (content.length : Int)
    ∧ (HandleGoodRequest mimeByExt fmtTime nowStr req virtualHosts fs).Body = content := by
  have hw := goContains_false_of_realistic _ hreal
  unfold HandleGoodRequest
  simp [hhost, hfile, hw, statusOK]

/-- Witness for C2 at `GET /index.html` against `fsSite`. -/
theorem C2_file_served_exact_witness :
    (reqIndex.Method = "GET"
     ∧ List.lookup reqIndex.Host vhA = some "site"
     ∧ fsSite (goClean ("site" ++ filelocationOf reqIndex)) =
         some (FSEntry.file "hello" 0)
     ∧ realisticFilePath (goClean ("site" ++ filelocationOf reqIndex)))
    ∧ ((HandleGoodRequest mime0 fmt0 "D" reqIndex vhA fsSite).StatusCode = 200
       ∧ (HandleGoodRequest mime0 fmt0 "D" reqIndex vhA fsSite).ContentLength =
           (("hello" : String).length : Int)
       ∧ (HandleGoodRequest mime0 fmt0 "D" reqIndex vhA fsSite).Body = "hello") :=
  ⟨⟨rfl, by decide, by decide, by decide⟩,
   C2_file_served_exact mime0 fmt0 "D" reqIndex vhA fsSite "site" "hello" 0 rfl
     (by decide) (by decide) (by decide)⟩

/-- C3 counterexample: for the well-formed 200 response `res200x` the
serializer's output differs from the spec's serialization (status line,
sorted headers, one blank line, body exactly once): `ToString` appends the
body twice, separated by an extra CRLF. -/
theorem C3_counterexample : Response.ToString res200x ≠ specSerialize res200x := by
  decide

/-- C3 (amended): `ToString` emits the status line, then the response's
header lines in the fixed order Connection, Content-Length, Content-Type,
Date, Last-Modified — which is lexicographically sorted by name — then one
blank CRLF line, then the body, then a second CRLF and the body again,
regardless of status; being a pure function of the response value, it is
byte-identical across calls. -/
theorem C3_serializer_shape (res : Response) :
    Response.ToString res =
      res.addInitialLine ++
        (renderHeaders (wireHeaders res) ++
          (CRLF ++ (res.Body ++ (CRLF ++ res.Body))))
    ∧ List.Pairwise (fun a b : String × String => lexLe a.1.data b.1.data = true)
        (wireHeaders res) := by
  constructor
  · rw [Response.ToString, addHeaders_renders]
    simp [strAppend_assoc]
  · rcases lt_or_ge res.ContentLength 0 with hl | hl
    · have h1 : ¬res.ContentLength ≥ 0 := not_le.mpr hl
      by_cases hc : res.Connection = true <;>
        simp [wireHeaders, hc, hl, h1, List.pairwise_cons] <;> decide
    · have h1 : ¬res.ContentLength < 0 := not_lt_of_ge hl
      by_cases hc : res.Connection = true <;>
        simp [wireHeaders, hc, hl, h1, List.pairwise_cons] <;> decide

/-- C4 counterexample: for a request whose Host has no match and whose
close flag is unset, the built response has status 400 but does not carry
`Connection: close` — neither the flag that makes the serializer emit the
header nor the header bytes themselves. -/
theorem C4_counterexample :
    (HandleGoodRequest mime0 fmt0 "D" reqUnknown vhA fsSite).StatusCode = 400
    ∧ (HandleGoodRequest mime0 fmt0 "D" reqUnknown vhA fsSite).Connection = false
    ∧ goContains
        (Response.ToString (HandleGoodRequest mime0 fmt0 "D" reqUnknown vhA fsSite))
        "Connection: close" = false := by
  decide

/-- C4 (amended): an unmatched Host yields status 400 (not 404), and the
response's Connection-close flag equals the request's close flag — the
close header is carried only when the inbound request asked to close. -/
theorem C4_unknown_host_400 (mimeByExt : String → String) (fmtTime : Nat → String)
    (nowStr : String) (req : Request) (virtualHosts : List (String × String))
    (fs : FS) (h : List.lookup req.Host virtualHosts = none) :
    (HandleGoodRequest mimeByExt fmtTime nowStr req virtualHosts fs).StatusCode = 400
    ∧ (HandleGoodRequest mimeByExt fmtTime nowStr req virtualHosts fs).Connection =
        req.Close := by
  cases hcl : req.Close <;>
    simp [HandleGoodRequest, h, hcl, statusBadRequest, Response.init, emptyResponse]

/-- Witness for C4 (amended) at `reqUnknown`. -/
theorem C4_unknown_host_400_witness :
    List.lookup reqUnknown.Host vhA = none
    ∧ ((HandleGoodRequest mime0 fmt0 "D" reqUnknown vhA fsSite).StatusCode = 400
       ∧ (HandleGoodRequest mime0 fmt0 "D" reqUnknown vhA fsSite).Connection =
           reqUnknown.Close) :=
  ⟨by decide, C4_unknown_host_400 mime0 fmt0 "D" reqUnknown vhA fsSite (by decide)⟩

/-- C5: serving a parsed request with the close flag set produces, from
that read attempt on, exactly one written response — which contains the
header line `Connection: close` — followed by the connection being closed;
the remaining input is never consumed, so no further request is read. -/
theorem C5_close_request_single_response (mimeByExt : String → String)
    (fmtTime : Nat → String) (nowStr : String)
    (virtualHosts : List (String × String)) (fs : FS) (req : Request)
    (rest : List ReadResult) (h : req.Close = true) :
    HandleConnectionEvents mimeByExt fmtTime nowStr virtualHosts fs false
        (ReadResult.success req :: rest) =
      [Event.readAttempt,
       Event.wrote (Response.ToString
         (HandleGoodRequest mimeByExt fmtTime nowStr req virtualHosts fs)),
       Event.closedConn, Event.closedConn]
    ∧ goContains
        (Response.ToString
          (HandleGoodRequest mimeByExt fmtTime nowStr req virtualHosts fs))
        ("Connection: close" ++ CRLF) = true := by
  have hc := HandleGoodRequest_Connection_of_Close mimeByExt fmtTime nowStr req
    virtualHosts fs h
  refine ⟨?_, ToString_contains_close _ hc⟩
  simp [HandleConnectionEvents, hc]

/-- Witness for C5 at a close-flagged `GET /index.html`. -/
theorem C5_close_request_single_response_witness :
    reqIndexClose.Close = true
    ∧ (HandleConnectionEvents mime0 fmt0 "D" vhA fsSite false
          (ReadResult.success reqIndexClose :: [ReadResult.eofR]) =
        [Event.readAttempt,
         Event.wrote (Response.ToString
           (HandleGoodRequest mime0 fmt0 "D" reqIndexClose vhA fsSite)),
         Event.closedConn, Event.closedConn]
       ∧ goContains
           (Response.ToString (HandleGoodRequest mime0 fmt0 "D" reqIndexClose vhA fsSite))
           ("Connection: close" ++ CRLF) = true) :=
  ⟨rfl,
   C5_close_request_single_response mime0 fmt0 "D" vhA fsSite reqIndexClose
     [ReadResult.eofR] rfl⟩

/-- C6 counterexample: three successive peer-close (EOF) read outcomes
with zero bytes consumed produce three read attempts and nothing else —
the connection is never closed and the loop keeps reading, where the claim
requires a close and loop termination. -/
theorem C6_counterexample :
    HandleConnectionEvents mime0 fmt0 "D" vhA fsSite false
        [ReadResult.eofR, ReadResult.eofR, ReadResult.eofR] =
      [Event.readAttempt, Event.readAttempt, Event.readAttempt]
    ∧ Event.closedConn ∉
        [Event.readAttempt, Event.readAttempt, Event.readAttempt] := by
  decide

/-- C6 (amended): an idle-timeout expiry with zero bytes consumed writes
no response, closes the connection, and terminates the loop (the remaining
input is never consumed); a peer close (EOF) with zero bytes consumed also
writes no response, but the connection is not closed and the loop keeps
issuing read attempts. -/
theorem C6_zero_byte_endings (mimeByExt : String → String) (fmtTime : Nat → String)
    (nowStr : String) (virtualHosts : List (String × String)) (fs : FS) :
    (∀ rest : List ReadResult,
      HandleConnectionEvents mimeByExt fmtTime nowStr virtualHosts fs false
          (ReadResult.timeoutNoBytes :: rest) =
        [Event.readAttempt, Event.closedConn])
    ∧ (∀ n : Nat,
      HandleConnectionEvents mimeByExt fmtTime nowStr virtualHosts fs false
          (List.replicate n ReadResult.eofR) =
        List.replicate n Event.readAttempt) := by
  constructor
  · intro rest
    simp [HandleConnectionEvents]
  · intro n
    induction n with
    | zero => simp [HandleConnectionEvents]
    | succ n ih => simp [List.replicate_succ, HandleConnectionEvents, ih]

/-- C7: the claim says a request without a `Host` header is a parse
failure answered with 400, but the final `ReadRequest` swaps the Host and
Connection branches: a header block with only `Connection: a.com` parses
successfully (the value lands in `req.Host`) and can even be served 200,
while a block with only `Host: a.com` is rejected as host-not-present. -/
theorem C7_missing_host_accepted :
    ReadRequest ["GET /x HTTP/1.1", "Connection: a.com", ""] =
      ParseResult.ok reqConnOnly
    ∧ ReadRequest ["GET /x HTTP/1.1", "Host: a.com", ""] =
        ParseResult.errR ParseErr.hostNotPresent
    ∧ (HandleGoodRequest mime0 fmt0 "D" reqConnOnly vhA fsSite).StatusCode = 200 := by
  decide

/-- C8: for every start line, `SplitN(line, " ", 3)` yields at most 3
fields; fewer than 3 is a malformed-start-line failure; with 3 fields, a
first field other than `"GET"` is an invalid-method failure and (for a
`GET`) a third field other than `"HTTP/1.1"` is an invalid-protocol
failure; the stage succeeds exactly on `GET`/`HTTP/1.1` lines. -/
theorem C8_start_line_classification (line : String) :
    (goSplitN line " " 3).length ≤ 3
    ∧ ((goSplitN line " " 3).length ≠ 3 →
        parseStartLineStage line = StartLineResult.errSL ParseErr.malformedStartLine)
    ∧ (∀ m u p, goSplitN line " " 3 = [m, u, p] → m ≠ "GET" →
        parseStartLineStage line = StartLineResult.errSL ParseErr.invalidMethod)
    ∧ (∀ m u p, goSplitN line " " 3 = [m, u, p] → m = "GET" → p ≠ "HTTP/1.1" →
        parseStartLineStage line = StartLineResult.errSL ParseErr.invalidProto)
    ∧ (∀ m u p, parseStartLineStage line = StartLineResult.okSL m u p →
        goSplitN line " " 3 = [m, u, p] ∧ m = "GET" ∧ p = "HTTP/1.1") := by
  have hlen : (goSplitN line " " 3).length ≤ 3 := goSplitN_length_le 2 line " "
  refine ⟨hlen, ?_, ?_, ?_, ?_⟩
  · intro hne
    rcases hsp : goSplitN line " " 3 with _ | ⟨a, _ | ⟨b, _ | ⟨c, t⟩⟩⟩
    · simp [parseStartLineStage, parseRequestLine, hsp]
    · simp [parseStartLineStage, parseRequestLine, hsp]
    · simp [parseStartLineStage, parseRequestLine, hsp]
    · cases t with
      | nil => rw [hsp] at hne; simp at hne
      | cons d t' =>
        rw [hsp] at hlen
        simp at hlen
  · intro m u p hsp hm
    simp [parseStartLineStage, parseRequestLine, hsp, validMethod, hm]
  · intro m u p hsp hm hp
    simp [parseStartLineStage, parseRequestLine, hsp, validMethod, validProto, hm, hp]
  · intro m u p hok
    rcases hsp : goSplitN line " " 3 with _ | ⟨a, _ | ⟨b, _ | ⟨c, t⟩⟩⟩
    · simp [parseStartLineStage, parseRequestLine, hsp] at hok
    · simp [parseStartLineStage, parseRequestLine, hsp] at hok
    · simp [parseStartLineStage, parseRequestLine, hsp] at hok
    · cases t with
      | cons d t' =>
        rw [hsp] at hlen
        simp at hlen
      | nil =>
        by_cases hm : a = "GET"
        · by_cases hp2 : c = "HTTP/1.1"
          · simp [parseStartLineStage, parseRequestLine, hsp, validMethod,
              validProto, hm, hp2] at hok
            obtain ⟨rfl, rfl, rfl⟩ := hok
            exact ⟨by rw [hm, hp2], rfl, rfl⟩
          · simp [parseStartLineStage, parseRequestLine, hsp, validMethod,
              validProto, hm, hp2] at hok
        · simp [parseStartLineStage, parseRequestLine, hsp, validMethod, hm] at hok

/-- Witness for C8 at the line `"PUT /a HTTP/1.1"`. -/
theorem C8_start_line_classification_witness :
    goSplitN "PUT /a HTTP/1.1" " " 3 = ["PUT", "/a", "HTTP/1.1"]
    ∧ parseStartLineStage "PUT /a HTTP/1.1" =
        StartLineResult.errSL ParseErr.invalidMethod :=
  ⟨by decide,
   (C8_start_line_classification "PUT /a HTTP/1.1").2.2.1 "PUT" "/a" "HTTP/1.1"
     (by decide) (by decide)⟩

/-- C9: in `processHeader` (the parsed-request post-processing of
`request.go`), a `Connection` header whose value lower-cases to `"close"`
sets the close flag and any other value is accepted without error and
ignored — the request (with its initially false close flag) passes through
with only the host filled in. -/
theorem C9_connection_close_flag (req : Request) (hv v : String) (t : List Char)
    (hurl : req.URL.data = '/' :: t)
    (hhost : List.lookup HOST req.Headers = some hv)
    (hconn : List.lookup CONNECTION req.Headers = some v)
    (hinit : req.Close = false) :
    (goToLower v = "close" →
      req.processHeader = PHResult.okPH { req with Host := hv, Close := true })
    ∧ (goToLower v ≠ "close" →
      req.processHeader = PHResult.okPH { req with Host := hv, Close := false }) := by
  constructor <;> intro hcl <;>
    simp [Request.processHeader, hurl, hhost, hconn, hcl, hinit]

/-- Witness for C9 at a request with `Connection: Keep-Alive`. -/
theorem C9_connection_close_flag_witness :
    (reqHdrs.URL.data = '/' :: ['x']
     ∧ List.lookup HOST reqHdrs.Headers = some "a.com"
     ∧ List.lookup CONNECTION reqHdrs.Headers = some "Keep-Alive"
     ∧ reqHdrs.Close = false)
    ∧ (goToLower "Keep-Alive" ≠ "close" →
        reqHdrs.processHeader =
          PHResult.okPH { reqHdrs with Host := "a.com", Close := false }) :=
  ⟨⟨rfl, by decide, by decide, rfl⟩,
   (C9_connection_close_flag reqHdrs "a.com" "Keep-Alive" ['x'] rfl (by decide)
     (by decide) rfl).2⟩

/-- C10: the claim says the leading-slash validation never indexes out of
range, but on the start line `"GET  HTTP/1.1"` (empty second field) both
`ReadRequest`'s `req.URL[0]` and `processHeader`'s `req.URL[0]` index the
empty string — a Go runtime panic, reached because the line does split
into three fields with a valid method and protocol. -/
theorem C10_empty_target_panics :
    ReadRequest ["GET  HTTP/1.1"] = ParseResult.panicked
    ∧ reqEmptyURL.processHeader = PHResult.panickedPH
    ∧ parseStartLineStage "GET  HTTP/1.1" =
        StartLineResult.okSL "GET" "" "HTTP/1.1" := by
  decide
